import Mathlib

/-!
Shallow embedding of the macOS task-dumper / module-list subsystem of
`minidump_writer_linux` (files `src/mac/task_dumper.rs` and
`src/mac/streams/module_list.rs`).

Machine integers are modelled as `Nat` with explicit `% 2^w` at the points
where the Rust code truncates or wraps (the `as u32` cast, `u64` wrapping
subtraction).  The kernel (memory contents, `mach_vm_read` success,
`mach_vm_region_recurse` lookups), the standard library's UTF-8 validator,
and the decoded load-command stream of an image are modelled as components
of the `TaskDumper` environment, since they are external to the two source
files (mach syscalls, `String::from_utf8`, the `mach_helpers` module).
-/

deriving instance DecidableEq for Except

namespace Minidump

/-- Error type of `task_dumper.rs` (`TaskDumpError`).  The `Kernel` variant
carries the failing syscall's name; the decoded kernel status code is
dropped since no property depends on it.  `NonUtf8String` is the
`TextDecodeFailure` of the spec's error taxonomy (§7): `read_string`
propagates `String::from_utf8` failure with `?`, which requires such a
variant (the excerpted enum elides it). -/
inductive TaskDumpError where
  | Kernel (syscall : String)
  | InvalidMachHeader
  | NonUtf8String
deriving DecidableEq, Repr

/-- Error type of the writer (`WriterError`), defined outside the excerpt;
the variants used by `module_list.rs` are `NoExecutableImage`,
`InvalidMachHeader`, `UnknownUuid`, and the embedding of `TaskDumpError`
(the `From` conversion applied by `?`). -/
inductive WriterError where
  | NoExecutableImage
  | InvalidMachHeader
  | UnknownUuid
  | TaskDump (e : TaskDumpError)
deriving DecidableEq, Repr

/-- `dyld_image_info` (struct `ImageInfo` in `task_dumper.rs`):
`{load_address: u64, file_path: u64, file_mod_date: u64}`. -/
structure ImageInfo where
  load_address : Nat
  file_path : Nat
  file_mod_date : Nat
deriving DecidableEq, Repr

/-- `impl PartialEq for ImageInfo`: equality is solely by `load_address`. -/
def ImageInfo.eqImpl (a o : ImageInfo) : Bool :=
  a.load_address == o.load_address

/-- `impl Ord for ImageInfo` as the corresponding `≤` test: ordering is
solely by `load_address` (`self.load_address.cmp(&o.load_address)`). -/
def ImageInfo.leImpl (a o : ImageInfo) : Bool :=
  decide (a.load_address ≤ o.load_address)

/-- `VMRegionInfo.range` (`task_dumper.rs`): the `[start, end)` address
range of a virtual-memory region; the protection metadata of the `info`
field is irrelevant to every property and omitted. -/
structure VMRegionInfo where
  startAddr : Nat
  endAddr : Nat
deriving DecidableEq, Repr

/-- A load command decoded from an image's command stream.  Modelled from
the spec: the decoder lives in the `mach_helpers` module which is not part
of the excerpt; §3 gives the tagged variant
`{Segment{name, vm_addr, vm_size, file_off, file_size},
DylibIdentification{packed_version}, UniqueId{uuid}, Other}`.  Field names
follow the uses in `module_list.rs` (`seg.segment_name`, `seg.vm_addr`,
`dylib.current_version`, `img_id.uuid`). -/
structure SegmentCommand where
  segment_name : List Nat
  vm_addr : Nat
  vm_size : Nat
  file_off : Nat
  file_size : Nat
deriving DecidableEq, Repr

inductive LoadCommand where
  | Segment (seg : SegmentCommand)
  | Dylib (current_version : Nat)
  | Uuid (uuid : List Nat)
  | Other
deriving DecidableEq, Repr

/-- The task-dumper handle (`struct TaskDumper`) together with the
kernel-visible state of the frozen target task that its syscalls observe:
the target's memory bytes, which read windows `mach_vm_read` accepts,
the region map consulted by `mach_vm_region_recurse` (`none` = the call
fails for that address), the UTF-8 validity predicate of
`String::from_utf8`, the image list produced by `read_images`, and the
decoded load-command stream per image (`read_load_commands` plus the
`mach_helpers` iterator). -/
structure TaskDumper where
  pageSize : Nat
  mem : Nat → Nat
  readOk : Nat → Nat → Bool
  regionAt : Nat → Option VMRegionInfo
  utf8Ok : List Nat → Bool
  images : Except TaskDumpError (List ImageInfo)
  loadCommands : ImageInfo → Except TaskDumpError (List LoadCommand)

/-- `mach_vm_read` over the window `[a, a+len)`: on success the kernel
maps the window's bytes locally. -/
def mach_vm_read (s : TaskDumper) (a len : Nat) :
    Except TaskDumpError (List Nat) :=
  if s.readOk a len then
    .ok ((List.range len).map fun i => s.mem (a + i))
  else
    .error (.Kernel "mach_vm_read")

/-- `TaskDumper::read_task_memory::<T>(address, count)`; `tsize` is
`size_of::<T>()` and the result is the raw byte buffer.
`address & -page_size` clears the low bits, i.e. subtracts
`address % page_size` (the page size is a power of two);
`(address + length + page_size - 1) & -page_size` rounds
`address + length` up to a page boundary.  The copy takes `length` bytes
of the mapped window starting at offset `address - page_address`
(`local_start.offset(address - page_address)`). -/
def read_task_memory (s : TaskDumper) (address count tsize : Nat) :
    Except TaskDumpError (List Nat) :=
  let length := count * tsize
  let page_address := address - address % s.pageSize
  let roundUp := address + length + s.pageSize - 1
  let last_page_address := roundUp - roundUp % s.pageSize
  match mach_vm_read s page_address (last_page_address - page_address) with
  | .error e => .error e
  | .ok window => .ok ((window.drop (address - page_address)).take length)

/-- `TaskDumper::get_vm_region(addr)`: resolve the region covering or
following `addr` via `mach_vm_region_recurse`; a failing lookup becomes a
kernel error. -/
def get_vm_region (s : TaskDumper) (addr : Nat) :
    Except TaskDumpError VMRegionInfo :=
  match s.regionAt addr with
  | some r => .ok r
  | none => .error (.Kernel "mach_vm_region_recurse")

/-- The `get_region_size` closure inside `read_string`: distance from
`addr` to the end of its region, extended by the whole following region
when the remainder is under `4 * 1024` bytes and that region starts
exactly at the current region's end. -/
def get_region_size (s : TaskDumper) (addr : Nat) :
    Except TaskDumpError Nat :=
  match get_vm_region s addr with
  | .error e => .error e
  | .ok region =>
    let size_to_end := region.endAddr - addr
    if size_to_end < 4 * 1024 then
      match get_vm_region s region.endAddr with
      | .error e => .error e
      | .ok maybe_adjacent =>
        if maybe_adjacent.startAddr == region.endAddr then
          .ok (size_to_end + (maybe_adjacent.endAddr - maybe_adjacent.startAddr))
        else
          .ok size_to_end
    else
      .ok size_to_end

/-- Truncation at the first zero byte
(`bytes.iter().position(|c| *c == 0)` followed by `bytes.resize`);
without a zero byte the buffer is kept whole. -/
def truncAtNul (bytes : List Nat) : List Nat :=
  match bytes.findIdx? (· == 0) with
  | some null_pos => bytes.take null_pos
  | none => bytes

/-- `TaskDumper::read_string(addr)`: compute the read bound, read that
many bytes, truncate at the first zero byte, and decode.  A failure of the
`get_region_size` closure yields `Ok(None)`; a failed memory read or
invalid UTF-8 is a hard error.  On success `String::from_utf8` returns a
string holding exactly the input bytes, so the result is modelled as the
byte list itself. -/
def read_string (s : TaskDumper) (addr : Nat) :
    Except TaskDumpError (Option (List Nat)) :=
  match get_region_size s addr with
  | .ok size_to_end =>
    match read_task_memory s addr size_to_end 1 with
    | .error e => .error e
    | .ok bytes =>
      let bytes := truncAtNul bytes
      if s.utf8Ok bytes then .ok (some bytes) else .error .NonUtf8String
  | .error _ => .ok none

/-- `TaskDumper::read_images()`: the dyld walk (task info, `AllImagesInfo`
header, bulk descriptor read) is kernel state; its outcome is the
environment's image list. -/
def read_images (s : TaskDumper) : Except TaskDumpError (List ImageInfo) :=
  s.images

/-! ## `module_list.rs` -/

/-- `format::VS_FFI_SIGNATURE`. -/
def VS_FFI_SIGNATURE : Nat := 0xFEEF04BD
/-- `format::VS_FFI_STRUCVERSION`. -/
def VS_FFI_STRUCVERSION : Nat := 0x00010000

/-- The `version_info` sub-record of `MDRawModule` (fields set by
`read_module`). -/
structure VersionInfo where
  signature : Nat := 0
  struct_version : Nat := 0
  file_version_hi : Nat := 0
  file_version_lo : Nat := 0
deriving DecidableEq, Repr

/-- The fields of `MDRawModule` that `read_module` computes.  The buffer
placement fields (`module_name_rva`, `cv_record`) locate data in the
external output buffer, which is out of scope (§1); the raw path bytes
written for the module are kept as `module_name`. -/
structure MDRawModule where
  base_of_image : Nat := 0
  size_of_image : Nat := 0
  module_name : List Nat := []
  version_info : VersionInfo := {}
deriving DecidableEq, Repr

instance : Inhabited MDRawModule := ⟨{}⟩

/-- `b"__TEXT\0"`: the 7 bytes compared against `seg.segment_name[..7]`. -/
def textSegName : List Nat := [0x5F, 0x5F, 0x54, 0x45, 0x58, 0x54, 0x00]

/-- The local `ImageSizes` struct of `read_module`.  `slide` is a `u64`
quantity (the Rust field's `isize` type does not match the `u64`
subtraction assigned to it; the arithmetic is the `u64` one). -/
structure ImageSizes where
  vm_addr : Nat
  vm_size : Nat
  slide : Nat
deriving DecidableEq, Repr

/-- Wrapping `u64` subtraction `a - b` (operands are `u64` values). -/
def wsub64 (a b : Nat) : Nat := (a + (2 ^ 64 - b % 2 ^ 64)) % 2 ^ 64

/-- The `ImageSizes` value built by the `Segment` arm of the scan: the
segment's addresses together with
`slide = if file_off == 0 && file_size != 0 { load_address - vm_addr } else { 0 }`
(`u64` arithmetic). -/
def mkSizes (image : ImageInfo) (seg : SegmentCommand) : ImageSizes :=
  { vm_addr := seg.vm_addr
    vm_size := seg.vm_size
    slide := if seg.file_off == 0 && seg.file_size != 0 then
        wsub64 image.load_address seg.vm_addr
      else
        0 }

/-- The load-command scan loop of `read_module`: first matching command of
each kind wins (each arm is guarded by `is_none`), a `Segment` only sets
`sizes` when its name starts with `__TEXT\0`, and the loop breaks once all
three slots are filled.  (The source's break condition names
`image_sizes`/`image_version`/`image_uuid` while the scan populates
`sizes`/`version`/`uuid`; §9 of the spec flags this rename slip, whose
intended referents are the scanned locals.) -/
def scanLoadCommands (image : ImageInfo) :
    List LoadCommand → Option ImageSizes → Option Nat → Option (List Nat) →
    Option ImageSizes × Option Nat × Option (List Nat)
  | [], sizes, version, uuid => (sizes, version, uuid)
  | lc :: rest, sizes, version, uuid =>
    let st := match lc with
      | .Segment seg =>
        if sizes.isNone then
          if seg.segment_name.take 7 == textSegName then
            (some (mkSizes image seg), version, uuid)
          else
            (sizes, version, uuid)
        else
          (sizes, version, uuid)
      | .Dylib current_version =>
        if version.isNone then
          (sizes, some current_version, uuid)
        else
          (sizes, version, uuid)
      | .Uuid u =>
        if uuid.isNone then
          (sizes, version, some u)
        else
          (sizes, version, uuid)
      | .Other => (sizes, version, uuid)
    if st.1.isSome && st.2.1.isSome && st.2.2.isSome then
      st
    else
      scanLoadCommands image rest st.1 st.2.1 st.2.2

/-- Version repacking applied to a found identification command's packed
`u32` value (`read_module`, the `version_info` assignments). -/
def repackVersion (v : Nat) : VersionInfo :=
  { signature := VS_FFI_SIGNATURE
    struct_version := VS_FFI_STRUCVERSION
    file_version_hi := v >>> 16
    file_version_lo := ((v &&& 0xff00) <<< 8) ||| (v &&& 0xff) }

/-- `MiniDumpWriter::read_module(image)`: scan the load commands, require
the text segment (`InvalidMachHeader` otherwise) and the uuid
(`UnknownUuid` otherwise), resolve the file path (empty on a null pointer
or when `read_string` returns `None`; a hard `read_string` error
propagates via `?`), and build the record.  `base_of_image` is the `u64`
sum `vm_addr + slide`, `size_of_image` the `vm_size as u32` cast, and the
version fields are set only when an identification command was found.
The second component of the result is `is_main_executable`
(`image_version.is_none()`). -/
def read_module (s : TaskDumper) (image : ImageInfo) :
    Except WriterError (MDRawModule × Bool) :=
  match s.loadCommands image with
  | .error e => .error (WriterError.TaskDump e)
  | .ok cmds =>
    match scanLoadCommands image cmds none none none with
    | (none, _, _) => .error WriterError.InvalidMachHeader
    | (some _, _, none) => .error WriterError.UnknownUuid
    | (some image_sizes, version, some _uuid) =>
      let path_result : Except TaskDumpError (List Nat) :=
        if image.file_path != 0 then
          match read_string s image.file_path with
          | .error e => .error e
          | .ok o => .ok (o.getD [])
        else
          .ok []
      match path_result with
      | .error e => .error (WriterError.TaskDump e)
      | .ok file_path =>
        let version_info : VersionInfo := match version with
          | some v => repackVersion v
          | none => {}
        let raw_module : MDRawModule :=
          { base_of_image := (image_sizes.vm_addr + image_sizes.slide) % 2 ^ 64
            size_of_image := image_sizes.vm_size % 2 ^ 32
            module_name := file_path
            version_info := version_info }
        .ok (raw_module, version.isNone)

/-- Insert `a` in front of the first element it compares `≤` to (under
`ImageInfo`'s `Ord`, i.e. by `load_address`). -/
def orderedInsert (a : ImageInfo) : List ImageInfo → List ImageInfo
  | [] => [a]
  | b :: l => if a.leImpl b then a :: b :: l else b :: orderedInsert a l

/-- `Vec::sort()`: a stable sort ascending under `ImageInfo`'s derived
`Ord` (solely by `load_address`), modelled as insertion sort — stable
like the standard library's sort, so descriptors with equal addresses
keep their relative order. -/
def sortImages : List ImageInfo → List ImageInfo
  | [] => []
  | a :: l => orderedInsert a (sortImages l)

/-- The tail worker of `Vec::dedup`: drop each element equal (under
`ImageInfo`'s `PartialEq`, i.e. by `load_address`) to the last kept
element. -/
def dedupFrom (prev : ImageInfo) : List ImageInfo → List ImageInfo
  | [] => []
  | b :: l => if prev.eqImpl b then dedupFrom prev l else b :: dedupFrom b l

/-- `Vec::dedup()`: remove consecutive duplicates, keeping the first of
each run. -/
def dedupImages : List ImageInfo → List ImageInfo
  | [] => []
  | a :: l => a :: dedupFrom a l

/-- `images.sort(); images.dedup();` — sort ascending by `load_address`
(the derived `Ord`) and remove consecutive duplicates. -/
def sortDedup (images : List ImageInfo) : List ImageInfo :=
  dedupImages (sortImages images)

/-- The record-building loop of `read_loaded_modules`: a per-image failure
skips the image; a main-executable record is inserted at index 0, any
other is pushed at the back. -/
def buildModulesAux (s : TaskDumper) :
    List ImageInfo → List MDRawModule → Bool → List MDRawModule × Bool
  | [], modules, has_main_executable => (modules, has_main_executable)
  | image :: rest, modules, has_main_executable =>
    match read_module s image with
    | .ok (module, is_main_executable) =>
      if is_main_executable then
        buildModulesAux s rest (module :: modules) true
      else
        buildModulesAux s rest (modules ++ [module]) has_main_executable
    | .error _ => buildModulesAux s rest modules has_main_executable

def buildModules (s : TaskDumper) (images : List ImageInfo) :
    List MDRawModule × Bool :=
  buildModulesAux s images [] false

/-- `MiniDumpWriter::read_loaded_modules`, as written: enumerate, sort,
dedup, run the record-building loop, fail with `NoExecutableImage` when no
main executable was seen — and then return `Ok(images)`, the deduplicated
image-descriptor list, not the constructed `modules` vector. -/
def read_loaded_modulesImpl (s : TaskDumper) :
    Except WriterError (List ImageInfo) :=
  match read_images s with
  | .error e => .error (WriterError.TaskDump e)
  | .ok rawImages =>
    let images := sortDedup rawImages
    let has_main_executable := (buildModules s images).2
    if !has_main_executable then
      .error WriterError.NoExecutableImage
    else
      .ok images

/-- `MiniDumpWriter::write_module_list`, projected to the record count of
the emitted stream: `read_loaded_modules(..).unwrap_or_default()` then a
`u32` count header followed by the records.  The output buffer is an
external infallible sink, so the directory entry is summarised by the
count it covers. -/
def write_module_list (s : TaskDumper) : Except WriterError Nat :=
  let modules := (read_loaded_modulesImpl s).toOption.getD []
  .ok modules.length

/-! ## Spec-side selector functions used to state the theorems -/

/-- The first `Segment` command whose name starts with `__TEXT\0`. -/
def firstTextSeg : List LoadCommand → Option SegmentCommand
  | [] => none
  | .Segment seg :: rest =>
    if seg.segment_name.take 7 == textSegName then some seg
    else firstTextSeg rest
  | _ :: rest => firstTextSeg rest

/-- The packed version of the first `Dylib` identification command. -/
def firstDylib : List LoadCommand → Option Nat
  | [] => none
  | .Dylib v :: _ => some v
  | _ :: rest => firstDylib rest

/-- The uuid of the first `Uuid` command. -/
def firstUuid : List LoadCommand → Option (List Nat)
  | [] => none
  | .Uuid u :: _ => some u
  | _ :: rest => firstUuid rest

/-- Whether `read_module` succeeds on `image` with the main-executable
flag set. -/
def isOkMain (s : TaskDumper) (image : ImageInfo) : Bool :=
  match read_module s image with
  | .ok (_, true) => true
  | _ => false

/-- The record `read_module` builds for `image` (meaningful when it
succeeds). -/
def builtRecord (s : TaskDumper) (image : ImageInfo) : MDRawModule :=
  match read_module s image with
  | .ok (m, _) => m
  | .error _ => default


/-! ## Concrete task environments used as witnesses and counterexamples -/

/-- A text segment at `a` of size `sz` whose first mapped page contains
the image header (`file_off = 0`, `file_size ≠ 0`). -/
def sampleTextSeg (a sz : Nat) : SegmentCommand :=
  { segment_name := textSegName ++ [0]
    vm_addr := a
    vm_size := sz
    file_off := 0
    file_size := 0x100 }

def sampleMainImage : ImageInfo := ⟨0x3000, 0, 0⟩
def sampleLibImage : ImageInfo := ⟨0x1000, 0, 0⟩
def sampleMain2Image : ImageInfo := ⟨0x4000, 0, 0⟩
def sampleBigImage : ImageInfo := ⟨0x5000, 0, 0⟩

/-- Load commands of the main executable: no identification command. -/
def sampleMainCmds : List LoadCommand :=
  [.Segment (sampleTextSeg 0x3000 0x2000), .Uuid [1, 2, 3]]

/-- Load commands of a library: segment, identification, uuid. -/
def sampleLibCmds : List LoadCommand :=
  [.Segment (sampleTextSeg 0x1000 0x500), .Dylib 0x00020105, .Uuid [4, 5, 6]]

/-- A second main-executable candidate at a higher address. -/
def sampleMain2Cmds : List LoadCommand :=
  [.Segment (sampleTextSeg 0x4000 0x1000), .Uuid [7, 8, 9]]

/-- A library whose text segment is 2^32 bytes large. -/
def sampleBigCmds : List LoadCommand :=
  [.Segment (sampleTextSeg 0x5000 (2 ^ 32)), .Dylib 7, .Uuid [1, 1, 1]]

def sampleCommandTable (img : ImageInfo) :
    Except TaskDumpError (List LoadCommand) :=
  if img.load_address == 0x3000 then .ok sampleMainCmds
  else if img.load_address == 0x4000 then .ok sampleMain2Cmds
  else if img.load_address == 0x5000 then .ok sampleBigCmds
  else .ok sampleLibCmds

/-- A frozen task holding a main executable at `0x3000` and a library at
`0x1000`. -/
def sampleDumper : TaskDumper :=
  { pageSize := 0x1000
    mem := fun _ => 0
    readOk := fun _ _ => true
    regionAt := fun _ => none
    utf8Ok := fun _ => true
    images := .ok [sampleMainImage, sampleLibImage]
    loadCommands := sampleCommandTable }

/-- Same task, but every surviving image carries an identification
command: no main-executable candidate. -/
def noMainDumper : TaskDumper :=
  { sampleDumper with images := .ok [sampleLibImage] }

/-- Same task, but the image enumeration itself fails. -/
def noImagesDumper : TaskDumper :=
  { sampleDumper with images := .error (.Kernel "task_info") }

/-- Same task with two main-executable candidates (`0x3000` and
`0x4000`) and one library. -/
def twoMainDumper : TaskDumper :=
  { sampleDumper with
    images := .ok [sampleMain2Image, sampleLibImage, sampleMainImage] }



/-- A library image whose path pointer `0x40` is non-null. -/
def pathImage : ImageInfo := ⟨0x1000, 0x40, 0⟩

/-- A task where every memory read fails while the region map covers the
path pointer: the remote string read of the path is a hard kernel error,
not a `None`. -/
def pathFailDumper : TaskDumper :=
  { sampleDumper with
    readOk := fun _ _ => false
    regionAt := fun a => if a < 0x10000 then some ⟨0, 0x10000⟩ else none
    images := .ok [pathImage, sampleMainImage] }



/-- A task with a single mapped region `[0, 0x40)` and nothing after it:
the adjacent-region probe of `read_string` fails. -/
def gapDumper : TaskDumper :=
  { sampleDumper with
    pageSize := 16
    mem := fun a => if a == 0x38 then 0 else 65
    regionAt := fun a => if a < 0x40 then some ⟨0, 0x40⟩ else none }

/-- A task with two contiguous regions `[0, 0x40)` and `[0x40, 0x80)`;
a zero byte sits at `0x48`, past the first region's end. -/
def contigDumper : TaskDumper :=
  { sampleDumper with
    pageSize := 16
    mem := fun a => if a == 0x48 then 0 else 65
    regionAt := fun a =>
      if a < 0x40 then some ⟨0, 0x40⟩
      else if a < 0x80 then some ⟨0x40, 0x80⟩
      else none }

/-- A task with a region `[0, 0x40)` followed — after a gap — by
`[0x100, 0x200)`; a zero byte sits at `0x38`. -/
def gapReadDumper : TaskDumper :=
  { sampleDumper with
    pageSize := 16
    mem := fun a => if a == 0x38 then 0 else 65
    regionAt := fun a =>
      if a < 0x40 then some ⟨0, 0x40⟩ else some ⟨0x100, 0x200⟩ }



/-- A task with a 16-byte page size and distinguishable memory bytes,
for exercising the page-window arithmetic on small inputs. -/
def pageDumper : TaskDumper :=
  { sampleDumper with pageSize := 16, mem := fun a => a % 251 }



/-- Like `gapReadDumper` but the read bytes are not valid text. -/
def badUtf8Dumper : TaskDumper :=
  { gapReadDumper with utf8Ok := fun _ => false }

/-! ## Theorems -/


theorem scan_version_of_some (image : ImageInfo) :
    ∀ (cmds : List LoadCommand) (sizes : Option ImageSizes) (v : Nat)
      (u : Option (List Nat)),
      (scanLoadCommands image cmds sizes (some v) u).2.1 = some v := by
  intro cmds
  induction cmds with
  | nil => intro sizes v u; rfl
  | cons lc rest ih =>
    intro sizes v u
    cases lc <;> simp only [scanLoadCommands] <;> (repeat' split) <;> simp_all [ih]

theorem scan_version_of_none (image : ImageInfo) :
    ∀ (cmds : List LoadCommand) (sizes : Option ImageSizes)
      (u : Option (List Nat)),
      (scanLoadCommands image cmds sizes none u).2.1 = firstDylib cmds := by
  intro cmds
  induction cmds with
  | nil => intro sizes u; rfl
  | cons lc rest ih =>
    intro sizes u
    cases lc <;> simp only [scanLoadCommands, firstDylib] <;> (repeat' split) <;>
      simp_all [ih, scan_version_of_some]

theorem scan_sizes_of_some (image : ImageInfo) :
    ∀ (cmds : List LoadCommand) (sz : ImageSizes) (v : Option Nat)
      (u : Option (List Nat)),
      (scanLoadCommands image cmds (some sz) v u).1 = some sz := by
  intro cmds
  induction cmds with
  | nil => intro sz v u; rfl
  | cons lc rest ih =>
    intro sz v u
    cases lc <;> simp only [scanLoadCommands] <;> (repeat' split) <;> simp_all [ih]

theorem scan_sizes_of_none (image : ImageInfo) :
    ∀ (cmds : List LoadCommand) (v : Option Nat) (u : Option (List Nat)),
      (scanLoadCommands image cmds none v u).1 =
        (firstTextSeg cmds).map (mkSizes image) := by
  intro cmds
  induction cmds with
  | nil => intro v u; rfl
  | cons lc rest ih =>
    intro v u
    cases lc <;> simp only [scanLoadCommands, firstTextSeg] <;> (repeat' split) <;>
      simp_all [ih, scan_sizes_of_some]

theorem scan_uuid_of_some (image : ImageInfo) :
    ∀ (cmds : List LoadCommand) (sizes : Option ImageSizes) (v : Option Nat)
      (u : List Nat),
      (scanLoadCommands image cmds sizes v (some u)).2.2 = some u := by
  intro cmds
  induction cmds with
  | nil => intro sizes v u; rfl
  | cons lc rest ih =>
    intro sizes v u
    cases lc <;> simp only [scanLoadCommands] <;> (repeat' split) <;> simp_all [ih]

theorem scan_uuid_of_none (image : ImageInfo) :
    ∀ (cmds : List LoadCommand) (sizes : Option ImageSizes) (v : Option Nat),
      (scanLoadCommands image cmds sizes v none).2.2 = firstUuid cmds := by
  intro cmds
  induction cmds with
  | nil => intro sizes v; rfl
  | cons lc rest ih =>
    intro sizes v
    cases lc <;> simp only [scanLoadCommands, firstUuid] <;> (repeat' split) <;>
      simp_all [ih, scan_uuid_of_some]

theorem read_module_ok_fields (s : TaskDumper) (image : ImageInfo)
    (cmds : List LoadCommand) (m : MDRawModule) (flag : Bool)
    (hc : s.loadCommands image = .ok cmds)
    (hm : read_module s image = .ok (m, flag)) :
    ∃ sz, (scanLoadCommands image cmds none none none).1 = some sz ∧
      m.base_of_image = (sz.vm_addr + sz.slide) % 2 ^ 64 ∧
      m.size_of_image = sz.vm_size % 2 ^ 32 ∧
      flag = (scanLoadCommands image cmds none none none).2.1.isNone ∧
      m.version_info = (match (scanLoadCommands image cmds none none none).2.1 with
        | some v => repackVersion v
        | none => ({} : VersionInfo)) := by
  unfold read_module at hm
  rw [hc] at hm
  simp only at hm
  rcases hscan : scanLoadCommands image cmds none none none with ⟨sizes, version, uuid⟩
  rw [hscan] at hm
  cases sizes with
  | none => simp at hm
  | some sz =>
    cases uuid with
    | none => simp at hm
    | some u =>
      refine ⟨sz, rfl, ?_⟩
      simp only at hm
      split at hm
      · simp at hm
      · cases hm
        simp


/-- C1: the claim requires `read_loaded_modules` to return the
constructed module-record sequence, main executable first and the rest in
ascending `base_of_image` order.  The code instead ends with
`Ok(images)`: on a task with a main executable at `0x3000` and a library
at `0x1000` it evaluates to the deduplicated image-descriptor sequence in
ascending address order (main executable last, and descriptors rather
than records), while the module-record sequence the loop constructs —
main first — is discarded. -/
theorem claim_C1_returns_images_not_modules :
    read_loaded_modulesImpl sampleDumper = .ok [sampleLibImage, sampleMainImage] ∧
    (buildModules sampleDumper [sampleLibImage, sampleMainImage]).1 =
      [builtRecord sampleDumper sampleMainImage,
       builtRecord sampleDumper sampleLibImage] ∧
    (builtRecord sampleDumper sampleMainImage).base_of_image = 0x3000 ∧
    (builtRecord sampleDumper sampleLibImage).base_of_image = 0x1000 := by
  decide


/-- C2, counterexample: on a task whose only surviving image carries an
identification command, `read_loaded_modules` raises
`NoExecutableImage` (the `MissingMainExecutable` of the spec), yet
`write_module_list` does not propagate it: `unwrap_or_default()`
downgrades it to a successful directory entry with record count 0. -/
theorem claim_C2_counterexample :
    read_loaded_modulesImpl noMainDumper = .error WriterError.NoExecutableImage ∧
    write_module_list noMainDumper = .ok 0 := by
  decide

/-- C2 (amended): in `write_module_list`, failure of `read_images` is
downgraded to an empty module list (a successful directory entry with
record count 0); `MissingMainExecutable` (`NoExecutableImage`), raised by
`read_loaded_modules` whenever no surviving image lacks an identification
command, is likewise downgraded to an empty module list by
`unwrap_or_default()` — no enumeration error propagates to the caller. -/
theorem claim_C2_error_downgrades (s : TaskDumper) :
    (∀ e, s.images = .error e → write_module_list s = .ok 0) ∧
    (∀ e, read_loaded_modulesImpl s = .error e → write_module_list s = .ok 0) ∧
    (∃ n, write_module_list s = .ok n) := by
  refine ⟨?_, ?_, ?_⟩
  · intro e he
    unfold write_module_list read_loaded_modulesImpl read_images
    rw [he]
    rfl
  · intro e he
    unfold write_module_list
    rw [he]
    rfl
  · unfold write_module_list
    exact ⟨_, rfl⟩

/-- C2, witness: a task whose image enumeration fails with a kernel
error is downgraded to a count-0 module list, and so is the
`NoExecutableImage` task. -/
theorem claim_C2_error_downgrades_witness :
    (noImagesDumper.images = .error (.Kernel "task_info") ∧
      write_module_list noImagesDumper = .ok 0) ∧
    (read_loaded_modulesImpl noMainDumper = .error WriterError.NoExecutableImage ∧
      write_module_list noMainDumper = .ok 0) :=
  ⟨⟨by decide,
    (claim_C2_error_downgrades noImagesDumper).1 (.Kernel "task_info") (by decide)⟩,
   ⟨by decide,
    (claim_C2_error_downgrades noMainDumper).2.1 WriterError.NoExecutableImage
      (by decide)⟩⟩

/-- C3: for every packed 32-bit version value `v` found in an image's
(first) identification command, the record emitted by `read_module` has
`version_hi = v >> 16` and `version_lo = ((v & 0xff00) << 8) | (v & 0xff)`;
in particular `0x00020105` maps to `version_hi = 0x00000002`,
`version_lo = 0x00010005`, and the equations are bit-exact for all
inputs including `0` and `0xFFFFFFFF`. -/
theorem claim_C3_version_packing (s : TaskDumper) (image : ImageInfo)
    (cmds : List LoadCommand) (m : MDRawModule) (flag : Bool) (v : Nat)
    (hc : s.loadCommands image = .ok cmds)
    (hv : firstDylib cmds = some v)
    (hm : read_module s image = .ok (m, flag)) :
    m.version_info.file_version_hi = v >>> 16 ∧
    m.version_info.file_version_lo = ((v &&& 0xff00) <<< 8) ||| (v &&& 0xff) ∧
    (v = 0x00020105 →
      m.version_info.file_version_hi = 0x00000002 ∧
      m.version_info.file_version_lo = 0x00010005) ∧
    (v = 0 →
      m.version_info.file_version_hi = 0 ∧
      m.version_info.file_version_lo = 0) ∧
    (v = 0xFFFFFFFF →
      m.version_info.file_version_hi = 0x0000FFFF ∧
      m.version_info.file_version_lo = 0x00FF00FF) := by
  obtain ⟨sz, hsz, hbase, hsize, hflag, hvi⟩ :=
    read_module_ok_fields s image cmds m flag hc hm
  rw [scan_version_of_none, hv] at hvi
  refine ⟨by rw [hvi]; rfl, by rw [hvi]; rfl, ?_, ?_, ?_⟩ <;>
    (intro h; subst h; rw [hvi]; exact ⟨by decide, by decide⟩)

/-- C3, witness: the sample library's identification command holds
`0x00020105` and its record carries `version_hi = 2`,
`version_lo = 0x00010005`. -/
theorem claim_C3_version_packing_witness :
    (sampleDumper.loadCommands sampleLibImage = .ok sampleLibCmds ∧
      firstDylib sampleLibCmds = some 0x00020105 ∧
      read_module sampleDumper sampleLibImage =
        .ok (builtRecord sampleDumper sampleLibImage, false)) ∧
    (builtRecord sampleDumper sampleLibImage).version_info.file_version_hi =
      0x00020105 >>> 16 ∧
    (builtRecord sampleDumper sampleLibImage).version_info.file_version_lo =
      ((0x00020105 &&& 0xff00) <<< 8) ||| (0x00020105 &&& 0xff) :=
  ⟨⟨by decide, by decide, by decide⟩,
   (claim_C3_version_packing sampleDumper sampleLibImage sampleLibCmds _ false
     0x00020105 (by decide) (by decide) (by decide)).1,
   (claim_C3_version_packing sampleDumper sampleLibImage sampleLibCmds _ false
     0x00020105 (by decide) (by decide) (by decide)).2.1⟩


theorem wsub64_of_le (a b : Nat) (hb : b ≤ a) (ha : a < 2 ^ 64) :
    wsub64 a b = a - b := by
  unfold wsub64
  omega

/-- C7, counterexample: the claim asserts `size_of_image` equals the text
segment's `vm_size` for every record, but the field is the 32-bit
truncation `vm_size as u32`: a segment of size `2^32` yields a record
with `size_of_image = 0 ≠ 2^32`. -/
theorem claim_C7_counterexample :
    sampleDumper.loadCommands sampleBigImage = .ok sampleBigCmds ∧
    firstTextSeg sampleBigCmds = some (sampleTextSeg 0x5000 (2 ^ 32)) ∧
    (sampleTextSeg 0x5000 (2 ^ 32)).vm_size = 2 ^ 32 ∧
    read_module sampleDumper sampleBigImage =
      .ok (builtRecord sampleDumper sampleBigImage, false) ∧
    (builtRecord sampleDumper sampleBigImage).size_of_image = 0 ∧
    (0 : Nat) ≠ 2 ^ 32 := by
  decide

/-- C7 (amended): for every image record built by `read_module`,
`slide = load_address − segment.vm_addr` when the matched text segment
has `file_off == 0` and `file_size != 0`, and `slide = 0` otherwise; the
record's `base_of_image` equals `segment.vm_addr + slide`; its
`size_of_image` equals `segment.vm_size` truncated to 32 bits
(`vm_size as u32`, i.e. `vm_size mod 2^32`), which agrees with
`segment.vm_size` only when that value fits in 32 bits. -/
theorem claim_C7_slide_and_base (s : TaskDumper) (image : ImageInfo)
    (cmds : List LoadCommand) (m : MDRawModule) (flag : Bool)
    (seg : SegmentCommand)
    (hc : s.loadCommands image = .ok cmds)
    (hseg : firstTextSeg cmds = some seg)
    (hm : read_module s image = .ok (m, flag))
    (hlt : image.load_address < 2 ^ 64)
    (hva : seg.vm_addr ≤ image.load_address) :
    m.base_of_image =
      seg.vm_addr + (if seg.file_off = 0 ∧ seg.file_size ≠ 0 then
        image.load_address - seg.vm_addr else 0) ∧
    m.size_of_image = seg.vm_size % 2 ^ 32 := by
  obtain ⟨sz, hsz, hbase, hsize, hflag, hvi⟩ :=
    read_module_ok_fields s image cmds m flag hc hm
  rw [scan_sizes_of_none, hseg] at hsz
  have hsz2 : mkSizes image seg = sz := by simpa using hsz
  subst hsz2
  unfold mkSizes at hbase hsize
  constructor
  · by_cases h : seg.file_off = 0 ∧ seg.file_size ≠ 0
    · have hcond : (seg.file_off == 0 && seg.file_size != 0) = true := by
        simp [h.1, h.2]
      rw [if_pos h]
      simp only [hcond, if_true] at hbase
      rw [wsub64_of_le _ _ hva hlt] at hbase
      rw [hbase]
      omega
    · have hcond : (seg.file_off == 0 && seg.file_size != 0) = false := by
        push_neg at h
        by_cases h0 : seg.file_off = 0
        · simp [h0, h h0]
        · simp [h0]
      rw [if_neg h]
      simp only [hcond, Bool.false_eq_true, if_false] at hbase
      rw [hbase]
      omega
  · exact hsize

/-- C7, witness: the sample library's record has
`base_of_image = 0x1000` (its segment contains the header, so the slide
applies) and `size_of_image = 0x500`. -/
theorem claim_C7_slide_and_base_witness :
    (sampleDumper.loadCommands sampleLibImage = .ok sampleLibCmds ∧
      firstTextSeg sampleLibCmds = some (sampleTextSeg 0x1000 0x500) ∧
      read_module sampleDumper sampleLibImage =
        .ok (builtRecord sampleDumper sampleLibImage, false) ∧
      sampleLibImage.load_address < 2 ^ 64 ∧
      (sampleTextSeg 0x1000 0x500).vm_addr ≤ sampleLibImage.load_address) ∧
    (builtRecord sampleDumper sampleLibImage).base_of_image =
      (sampleTextSeg 0x1000 0x500).vm_addr +
        (if (sampleTextSeg 0x1000 0x500).file_off = 0 ∧
            (sampleTextSeg 0x1000 0x500).file_size ≠ 0 then
          sampleLibImage.load_address - (sampleTextSeg 0x1000 0x500).vm_addr
        else 0) ∧
    (builtRecord sampleDumper sampleLibImage).size_of_image =
      (sampleTextSeg 0x1000 0x500).vm_size % 2 ^ 32 :=
  ⟨⟨by decide, by decide, by decide, by decide, by decide⟩,
   (claim_C7_slide_and_base sampleDumper sampleLibImage sampleLibCmds _ false
      (sampleTextSeg 0x1000 0x500) (by decide) (by decide) (by decide)
      (by decide) (by decide)).1,
   (claim_C7_slide_and_base sampleDumper sampleLibImage sampleLibCmds _ false
      (sampleTextSeg 0x1000 0x500) (by decide) (by decide) (by decide)
      (by decide) (by decide)).2⟩


/-- C8, counterexample: the claim says a failing remote string read of
the path never fails the whole image, but `read_module` applies `?` to
`read_string`'s result: on a task where the path pointer `0x40` is
mapped yet the memory read fails, record construction for the image
fails with the propagated kernel error. -/
theorem claim_C8_counterexample :
    pathImage.file_path ≠ 0 ∧
    read_string pathFailDumper pathImage.file_path =
      .error (.Kernel "mach_vm_read") ∧
    read_module pathFailDumper pathImage =
      .error (.TaskDump (.Kernel "mach_vm_read")) := by
  decide

/-- C8 (amended): in `read_module`, when the image's path pointer is null
or the remote string read returns `None` (the region lookup for the path
address failed), the file path defaults to the empty string and record
construction for the image still succeeds; but a hard `read_string`
error — a failed memory read or invalid UTF-8 bytes — propagates via `?`
and fails the whole image. -/
theorem claim_C8_path_defaulting (s : TaskDumper) (image : ImageInfo)
    (cmds : List LoadCommand) (seg : SegmentCommand) (u : List Nat)
    (hc : s.loadCommands image = .ok cmds)
    (hseg : firstTextSeg cmds = some seg)
    (hu : firstUuid cmds = some u) :
    (image.file_path = 0 →
      ∃ m flag, read_module s image = .ok (m, flag) ∧ m.module_name = []) ∧
    (image.file_path ≠ 0 → read_string s image.file_path = .ok none →
      ∃ m flag, read_module s image = .ok (m, flag) ∧ m.module_name = []) ∧
    (∀ e, image.file_path ≠ 0 → read_string s image.file_path = .error e →
      read_module s image = .error (.TaskDump e)) := by
  have h1 : (scanLoadCommands image cmds none none none).1 =
      some (mkSizes image seg) := by
    rw [scan_sizes_of_none, hseg]; rfl
  have h3 : (scanLoadCommands image cmds none none none).2.2 = some u := by
    rw [scan_uuid_of_none, hu]
  unfold read_module
  rw [hc]
  dsimp only
  rcases hsc : scanLoadCommands image cmds none none none with ⟨szo, vo, uo⟩
  rw [hsc] at h1 h3
  simp only at h1 h3
  subst h1
  subst h3
  refine ⟨?_, ?_, ?_⟩
  · intro hp
    simp only [hp]
    exact ⟨_, _, rfl, rfl⟩
  · intro hp hrs
    have hp2 : (image.file_path != 0) = true := by simpa using hp
    simp only [hp2, if_true, hrs]
    exact ⟨_, _, rfl, rfl⟩
  · intro e hp hrs
    have hp2 : (image.file_path != 0) = true := by simpa using hp
    simp only [hp2, if_true, hrs]

/-- C8, witness: a null path pointer and an unmapped non-null path
pointer both default to the empty path with the record still built. -/
theorem claim_C8_path_defaulting_witness :
    (sampleDumper.loadCommands sampleLibImage = .ok sampleLibCmds ∧
      firstTextSeg sampleLibCmds = some (sampleTextSeg 0x1000 0x500) ∧
      firstUuid sampleLibCmds = some [4, 5, 6] ∧
      sampleLibImage.file_path = 0) ∧
    (∃ m flag, read_module sampleDumper sampleLibImage = .ok (m, flag) ∧
      m.module_name = []) ∧
    (pathImage.file_path ≠ 0 ∧
      read_string sampleDumper pathImage.file_path = .ok none ∧
      ∃ m flag, read_module sampleDumper pathImage = .ok (m, flag) ∧
        m.module_name = []) :=
  ⟨⟨by decide, by decide, by decide, by decide⟩,
   (claim_C8_path_defaulting sampleDumper sampleLibImage sampleLibCmds
      (sampleTextSeg 0x1000 0x500) [4, 5, 6] (by decide) (by decide)
      (by decide)).1 (by decide),
   ⟨by decide, by decide,
    (claim_C8_path_defaulting sampleDumper pathImage sampleLibCmds
      (sampleTextSeg 0x1000 0x500) [4, 5, 6] (by decide) (by decide)
      (by decide)).2.1 (by decide) (by decide)⟩⟩


theorem read_task_memory_ok (s : TaskDumper) (address count tsize : Nat)
    (buf : List Nat) (hps : 0 < s.pageSize)
    (hok : read_task_memory s address count tsize = .ok buf) :
    buf = (List.range (count * tsize)).map (fun i => s.mem (address + i)) := by
  unfold read_task_memory mach_vm_read at hok
  dsimp only at hok
  split at hok
  · cases hok
  · rename_i window heq
    cases hok
    split at heq
    case isFalse h => cases heq
    case isTrue h =>
    cases heq
    have hmodle : address % s.pageSize ≤ address := Nat.mod_le _ _
    have hroundlt :
        (address + count * tsize + s.pageSize - 1) % s.pageSize < s.pageSize :=
      Nat.mod_lt _ hps
    have hd : address - (address - address % s.pageSize) = address % s.pageSize := by
      omega
    rw [hd]
    -- the mapped window covers the requested bytes
    have hcover :
        address % s.pageSize + count * tsize ≤
          (address + count * tsize + s.pageSize - 1) -
              (address + count * tsize + s.pageSize - 1) % s.pageSize -
            (address - address % s.pageSize) := by
      omega
    apply List.ext_getElem
    · simp
      omega
    · intro i h1 h2
      simp only [List.length_take, List.length_drop, List.length_map,
        List.length_range] at h1 h2
      rw [List.getElem_take, List.getElem_drop, List.getElem_map,
        List.getElem_range, List.getElem_map, List.getElem_range]
      congr 1
      omega

/-- C6: for every address (page-aligned or not), element count and
element size, a successful `read_task_memory` issues its kernel read over
a window rounded down to the containing page start and up to a whole
number of pages covering `count * sizeof(T)` bytes (and no more than a
page beyond them), and the returned buffer is byte-identical to the
`count * sizeof(T)` bytes of target memory starting exactly at
`address`. -/
theorem claim_C6_page_rounding (s : TaskDumper) (address count tsize : Nat)
    (buf : List Nat) (hps : 0 < s.pageSize)
    (hok : read_task_memory s address count tsize = .ok buf) :
    (address - address % s.pageSize) % s.pageSize = 0 ∧
    address - address % s.pageSize ≤ address ∧
    address < address - address % s.pageSize + s.pageSize ∧
    s.pageSize ∣
      ((address + count * tsize + s.pageSize - 1) -
          (address + count * tsize + s.pageSize - 1) % s.pageSize -
        (address - address % s.pageSize)) ∧
    address + count * tsize ≤
      (address + count * tsize + s.pageSize - 1) -
        (address + count * tsize + s.pageSize - 1) % s.pageSize ∧
    (address + count * tsize + s.pageSize - 1) -
        (address + count * tsize + s.pageSize - 1) % s.pageSize <
      address + count * tsize + s.pageSize ∧
    buf.length = count * tsize ∧
    buf = (List.range (count * tsize)).map (fun i => s.mem (address + i)) := by
  have hb := read_task_memory_ok s address count tsize buf hps hok
  have hmodlt : address % s.pageSize < s.pageSize := Nat.mod_lt _ hps
  have hroundlt :
      (address + count * tsize + s.pageSize - 1) % s.pageSize < s.pageSize :=
    Nat.mod_lt _ hps
  have hpa : address - address % s.pageSize =
      s.pageSize * (address / s.pageSize) :=
    Nat.sub_eq_of_eq_add ((Nat.div_add_mod address s.pageSize).symm)
  have hlast : (address + count * tsize + s.pageSize - 1) -
      (address + count * tsize + s.pageSize - 1) % s.pageSize =
      s.pageSize * ((address + count * tsize + s.pageSize - 1) / s.pageSize) :=
    Nat.sub_eq_of_eq_add ((Nat.div_add_mod _ s.pageSize).symm)
  refine ⟨?_, Nat.sub_le _ _, by omega, ?_, by omega, by omega, ?_, hb⟩
  · rw [hpa]
    exact Nat.mul_mod_right _ _
  · rw [hpa, hlast, ← Nat.mul_sub]
    exact Dvd.intro _ rfl
  · rw [hb]
    simp

/-- C6, witness: a page-straddling read (page size 16, 8 bytes starting
at address 14) succeeds and returns exactly the addressed bytes. -/
theorem claim_C6_page_rounding_witness :
    (0 < pageDumper.pageSize ∧
      read_task_memory pageDumper 14 4 2 =
        .ok ((List.range 8).map (fun i => pageDumper.mem (14 + i)))) ∧
    ((List.range 8).map (fun i => pageDumper.mem (14 + i))).length = 4 * 2 :=
  ⟨⟨by decide, by decide⟩,
   (claim_C6_page_rounding pageDumper 14 4 2 _ (by decide) (by decide)).2.2.2.2.2.2.1⟩


theorem read_string_ne_none (s : TaskDumper) (addr n : Nat)
    (hg : get_region_size s addr = .ok n) :
    read_string s addr ≠ .ok none := by
  unfold read_string
  rw [hg]
  dsimp only
  split
  · simp
  · split <;> simp

theorem get_region_size_ok_cases (s : TaskDumper) (addr : Nat)
    (r : VMRegionInfo) (hr : s.regionAt addr = some r) :
    (4 * 1024 ≤ r.endAddr - addr →
      get_region_size s addr = .ok (r.endAddr - addr)) ∧
    (∀ adj, r.endAddr - addr < 4 * 1024 → s.regionAt r.endAddr = some adj →
      adj.startAddr = r.endAddr →
      get_region_size s addr =
        .ok (r.endAddr - addr + (adj.endAddr - adj.startAddr))) ∧
    (∀ adj, r.endAddr - addr < 4 * 1024 → s.regionAt r.endAddr = some adj →
      adj.startAddr ≠ r.endAddr →
      get_region_size s addr = .ok (r.endAddr - addr)) ∧
    (r.endAddr - addr < 4 * 1024 → s.regionAt r.endAddr = none →
      get_region_size s addr = .error (.Kernel "mach_vm_region_recurse")) := by
  unfold get_region_size get_vm_region
  rw [hr]
  dsimp only
  refine ⟨?_, ?_, ?_, ?_⟩
  · intro hge
    rw [if_neg (by omega)]
  · intro adj hlt hadj heq
    rw [if_pos hlt, hadj]
    dsimp only
    rw [if_pos (by simpa using heq)]
  · intro adj hlt hadj hne
    rw [if_pos hlt, hadj]
    dsimp only
    rw [if_neg (by simpa using hne)]
  · intro hlt hnone
    rw [if_pos hlt, hnone]

/-- C4, counterexample: the queried address `0x30` is mapped (its region
lookup succeeds, returning `[0, 0x40)`), fewer than 4096 bytes remain to
the region's end and the lookup for the following region fails — and
`read_string` returns `None`, refuting "None only when the VM-region
lookup for the queried address itself fails". -/
theorem claim_C4_counterexample :
    gapDumper.regionAt 0x30 = some ⟨0, 0x40⟩ ∧
    read_string gapDumper 0x30 = .ok none := by
  decide

/-- C4 (amended): `read_string(address)` returns `None` exactly when the
region lookup fails inside its bound computation: either the lookup for
the queried address itself fails, or fewer than 4096 bytes remain to the
containing region's end and the lookup for the region at that end fails.
In every other case it returns a string or a hard error; bytes that are
read but are not valid text produce a hard decode failure
(`NonUtf8String`), not `None`. -/
theorem claim_C4_none_vs_hard_error (s : TaskDumper) (addr : Nat) :
    (s.regionAt addr = none → read_string s addr = .ok none) ∧
    (∀ r, s.regionAt addr = some r → r.endAddr - addr < 4 * 1024 →
      s.regionAt r.endAddr = none → read_string s addr = .ok none) ∧
    (∀ r, s.regionAt addr = some r →
      (4 * 1024 ≤ r.endAddr - addr ∨ (s.regionAt r.endAddr).isSome = true) →
      read_string s addr ≠ .ok none) ∧
    (∀ n bytes, get_region_size s addr = .ok n →
      read_task_memory s addr n 1 = .ok bytes →
      s.utf8Ok (truncAtNul bytes) = false →
      read_string s addr = .error .NonUtf8String) := by
  refine ⟨?_, ?_, ?_, ?_⟩
  · intro h
    unfold read_string get_region_size get_vm_region
    rw [h]
  · intro r hr hlt hnone
    unfold read_string
    rw [(get_region_size_ok_cases s addr r hr).2.2.2 hlt hnone]
  · intro r hr hor
    rcases hor with hge | hsome
    · exact read_string_ne_none s addr _
        ((get_region_size_ok_cases s addr r hr).1 hge)
    · obtain ⟨adj, hadj⟩ := Option.isSome_iff_exists.mp hsome
      by_cases hlt : r.endAddr - addr < 4 * 1024
      · by_cases heq : adj.startAddr = r.endAddr
        · exact read_string_ne_none s addr _
            ((get_region_size_ok_cases s addr r hr).2.1 adj hlt hadj heq)
        · exact read_string_ne_none s addr _
            ((get_region_size_ok_cases s addr r hr).2.2.1 adj hlt hadj heq)
      · exact read_string_ne_none s addr _
          ((get_region_size_ok_cases s addr r hr).1 (by omega))
  · intro n bytes hg hm hbad
    unfold read_string
    rw [hg]
    dsimp only
    rw [hm]
    dsimp only
    rw [hbad]
    rfl

/-- C4, witness: an unmapped address yields `None`; mapped but invalid
UTF-8 bytes yield the hard decode failure. -/
theorem claim_C4_none_vs_hard_error_witness :
    (gapDumper.regionAt 0x100 = none ∧ read_string gapDumper 0x100 = .ok none) ∧
    (get_region_size badUtf8Dumper 0x30 = .ok 0x10 ∧
      read_task_memory badUtf8Dumper 0x30 0x10 1 =
        .ok ((List.range 0x10).map fun i => badUtf8Dumper.mem (0x30 + i)) ∧
      badUtf8Dumper.utf8Ok
        (truncAtNul ((List.range 0x10).map fun i => badUtf8Dumper.mem (0x30 + i))) =
        false ∧
      read_string badUtf8Dumper 0x30 = .error .NonUtf8String) :=
  ⟨⟨by decide, (claim_C4_none_vs_hard_error gapDumper 0x100).1 (by decide)⟩,
   ⟨by decide, by decide, by decide,
    (claim_C4_none_vs_hard_error badUtf8Dumper 0x30).2.2.2 0x10
      ((List.range 0x10).map fun i => badUtf8Dumper.mem (0x30 + i))
      (by decide) (by decide) (by decide)⟩⟩


theorem truncAtNul_eq_take (bytes : List Nat) :
    ∃ n, n ≤ bytes.length ∧ truncAtNul bytes = bytes.take n := by
  unfold truncAtNul
  cases h : bytes.findIdx? (· == 0) with
  | none => exact ⟨bytes.length, Nat.le_refl _, (List.take_length bytes).symm⟩
  | some i =>
    have hi := (List.findIdx?_eq_some_iff_findIdx_eq.mp h).1
    exact ⟨i, by omega, rfl⟩

/-- C5: in `read_string`, the read bound is the distance from the
address to the end of its containing VM region; it is extended into the
following region only when that distance is below 4096 bytes and the
following region starts exactly at the current region's end; when there
is a gap, the read never includes bytes from beyond the current region's
end: a returned string is drawn entirely from the bytes between the
address and the region's end (truncated at the zero byte or at the
window boundary), and otherwise the call fails. -/
theorem claim_C5_bound_extension (s : TaskDumper) (addr : Nat)
    (r : VMRegionInfo) (hr : s.regionAt addr = some r) (hps : 0 < s.pageSize) :
    (4 * 1024 ≤ r.endAddr - addr →
      get_region_size s addr = .ok (r.endAddr - addr)) ∧
    (∀ adj, r.endAddr - addr < 4 * 1024 → s.regionAt r.endAddr = some adj →
      adj.startAddr = r.endAddr →
      get_region_size s addr =
        .ok ((r.endAddr - addr) + (adj.endAddr - adj.startAddr))) ∧
    (∀ adj, r.endAddr - addr < 4 * 1024 → s.regionAt r.endAddr = some adj →
      adj.startAddr ≠ r.endAddr →
      get_region_size s addr = .ok (r.endAddr - addr)) ∧
    (∀ adj bs, s.regionAt r.endAddr = some adj → adj.startAddr ≠ r.endAddr →
      read_string s addr = .ok (some bs) →
      ∃ n, n ≤ r.endAddr - addr ∧
        bs = (List.range n).map fun i => s.mem (addr + i)) := by
  obtain ⟨g1, g2, g3, _⟩ := get_region_size_ok_cases s addr r hr
  refine ⟨g1, g2, g3, ?_⟩
  intro adj bs hadj hne hrs
  have hg : get_region_size s addr = .ok (r.endAddr - addr) := by
    by_cases hlt : r.endAddr - addr < 4 * 1024
    · exact g3 adj hlt hadj hne
    · exact g1 (by omega)
  unfold read_string at hrs
  rw [hg] at hrs
  dsimp only at hrs
  rcases hmem : read_task_memory s addr (r.endAddr - addr) 1 with e | bytes
  · rw [hmem] at hrs
    cases hrs
  · rw [hmem] at hrs
    dsimp only at hrs
    split at hrs
    · cases hrs
      have hb := read_task_memory_ok s addr (r.endAddr - addr) 1 bytes hps hmem
      obtain ⟨n, hn, ht⟩ := truncAtNul_eq_take bytes
      rw [hb] at hn
      simp only [List.length_map, List.length_range] at hn
      refine ⟨n, by omega, ?_⟩
      have hmin : min n ((r.endAddr - addr) * 1) = n := by omega
      rw [ht, hb, ← List.map_take, List.take_range, hmin]
    · cases hrs

/-- C5, witness: with a contiguous following region the bound covers
both regions and the null-terminated string crossing the boundary is
returned whole; with a gap the bound stops at the region's end and a
returned string is drawn from bytes before that end only. -/
theorem claim_C5_bound_extension_witness :
    (contigDumper.regionAt 0x30 = some ⟨0, 0x40⟩ ∧
      (0x40 : Nat) - 0x30 < 4 * 1024 ∧
      contigDumper.regionAt 0x40 = some ⟨0x40, 0x80⟩ ∧
      get_region_size contigDumper 0x30 = .ok 0x50 ∧
      read_string contigDumper 0x30 =
        .ok (some ((List.range 0x18).map fun _ => 65))) ∧
    (gapReadDumper.regionAt 0x30 = some ⟨0, 0x40⟩ ∧
      gapReadDumper.regionAt 0x40 = some ⟨0x100, 0x200⟩ ∧
      read_string gapReadDumper 0x30 =
        .ok (some ((List.range 8).map fun i => gapReadDumper.mem (0x30 + i))) ∧
      ∃ n, n ≤ (0x40 : Nat) - 0x30 ∧
        ((List.range 8).map fun i => gapReadDumper.mem (0x30 + i)) =
          (List.range n).map fun i => gapReadDumper.mem (0x30 + i)) :=
  ⟨⟨by decide, by decide, by decide,
    (claim_C5_bound_extension contigDumper 0x30 ⟨0, 0x40⟩ (by decide)
        (by decide)).2.1 ⟨0x40, 0x80⟩ (by decide) (by decide) (by decide),
    by decide⟩,
   ⟨by decide, by decide, by decide,
    (claim_C5_bound_extension gapReadDumper 0x30 ⟨0, 0x40⟩ (by decide)
        (by decide)).2.2.2 ⟨0x100, 0x200⟩
      ((List.range 8).map fun i => gapReadDumper.mem (0x30 + i))
      (by decide) (by decide) (by decide)⟩⟩


theorem mem_orderedInsert (a x : ImageInfo) :
    ∀ (l : List ImageInfo), x ∈ orderedInsert a l ↔ x = a ∨ x ∈ l := by
  intro l
  induction l with
  | nil => simp [orderedInsert]
  | cons b t ih =>
    simp only [orderedInsert]
    split
    · simp [List.mem_cons]
    · simp [List.mem_cons, ih]
      tauto

theorem pairwise_orderedInsert (a : ImageInfo) :
    ∀ (l : List ImageInfo),
      l.Pairwise (fun x y => x.load_address ≤ y.load_address) →
      (orderedInsert a l).Pairwise
        (fun x y => x.load_address ≤ y.load_address) := by
  intro l
  induction l with
  | nil =>
    intro _
    simp [orderedInsert]
  | cons b t ih =>
    intro hp
    rw [List.pairwise_cons] at hp
    obtain ⟨hb, ht⟩ := hp
    simp only [orderedInsert]
    split
    · rename_i hab
      have hab2 : a.load_address ≤ b.load_address := by
        simpa [ImageInfo.leImpl] using hab
      refine List.Pairwise.cons ?_ (List.Pairwise.cons hb ht)
      intro x hx
      rcases List.mem_cons.mp hx with rfl | hx2
      · exact hab2
      · exact Nat.le_trans hab2 (hb x hx2)
    · rename_i hab
      have hba : b.load_address ≤ a.load_address := by
        simp [ImageInfo.leImpl] at hab
        omega
      refine List.Pairwise.cons ?_ (ih ht)
      intro x hx
      rcases (mem_orderedInsert a x t).mp hx with rfl | hx2
      · exact hba
      · exact hb x hx2

theorem pairwise_sortImages :
    ∀ (l : List ImageInfo),
      (sortImages l).Pairwise (fun x y => x.load_address ≤ y.load_address) := by
  intro l
  induction l with
  | nil => simp [sortImages]
  | cons a t ih => exact pairwise_orderedInsert a _ ih

theorem mem_dedupFrom (x : ImageInfo) :
    ∀ (l : List ImageInfo) (prev : ImageInfo), x ∈ dedupFrom prev l → x ∈ l := by
  intro l
  induction l with
  | nil => intro prev h; cases h
  | cons b t ih =>
    intro prev h
    simp only [dedupFrom] at h
    split at h
    · exact List.mem_cons_of_mem b (ih prev h)
    · rcases List.mem_cons.mp h with rfl | h2
      · exact List.mem_cons_self ..
      · exact List.mem_cons_of_mem b (ih b h2)

theorem pairwise_dedupFrom :
    ∀ (l : List ImageInfo) (prev : ImageInfo),
      l.Pairwise (fun x y => x.load_address ≤ y.load_address) →
      (∀ x ∈ l, prev.load_address ≤ x.load_address) →
      (prev :: dedupFrom prev l).Pairwise
        (fun x y => x.load_address < y.load_address) := by
  intro l
  induction l with
  | nil =>
    intro prev _ _
    simp [dedupFrom]
  | cons b t ih =>
    intro prev hp hall
    rw [List.pairwise_cons] at hp
    obtain ⟨hb, ht⟩ := hp
    simp only [dedupFrom]
    split
    · rename_i heq
      have heq2 : prev.load_address = b.load_address := by
        simpa [ImageInfo.eqImpl] using heq
      refine ih prev ht ?_
      intro x hx
      exact Nat.le_trans (le_of_eq heq2) (hb x hx)
    · rename_i hne
      have hne2 : prev.load_address ≠ b.load_address := by
        simpa [ImageInfo.eqImpl] using hne
      have hlt : prev.load_address < b.load_address :=
        Nat.lt_of_le_of_ne (hall b (List.mem_cons_self ..)) hne2
      have hrest := ih b ht hb
      refine List.Pairwise.cons ?_ hrest
      intro x hx
      rcases List.mem_cons.mp hx with rfl | hx2
      · exact hlt
      · exact Nat.lt_of_lt_of_le hlt (hb x (mem_dedupFrom x t b hx2))

theorem pairwise_sortDedup (images : List ImageInfo) :
    (sortDedup images).Pairwise
      (fun x y => x.load_address < y.load_address) := by
  unfold sortDedup dedupImages
  cases h : sortImages images with
  | nil => simp
  | cons a t =>
    have hp := pairwise_sortImages images
    rw [h, List.pairwise_cons] at hp
    exact pairwise_dedupFrom t a hp.2 hp.1

theorem countP_le_one_of_pairwise_lt (addr : Nat) :
    ∀ (l : List ImageInfo),
      l.Pairwise (fun x y => x.load_address < y.load_address) →
      l.countP (fun i => i.load_address == addr) ≤ 1 := by
  intro l
  induction l with
  | nil => intro _; simp
  | cons a t ih =>
    intro hp
    rw [List.pairwise_cons] at hp
    by_cases ha : a.load_address = addr
    · have hpos := List.countP_cons_of_pos (fun i : ImageInfo => i.load_address == addr)
        t (by simpa using ha)
      have hz : t.countP (fun i => i.load_address == addr) = 0 := by
        rw [List.countP_eq_zero]
        intro x hx
        have := hp.1 x hx
        simp only [beq_iff_eq]
        omega
      omega
    · rw [List.countP_cons_of_neg (fun i : ImageInfo => i.load_address == addr)
        t (by simpa using ha)]
      exact ih hp.2

/-- C9: `ImageInfo` equality and ordering are defined solely by
`load_address` — two descriptors with equal address but different paths
or modification dates compare equal — and after the sort-and-dedup step
of `read_loaded_modules` at most one descriptor survives per distinct
`load_address`. -/
theorem claim_C9_dedup_by_address :
    (∀ a b : ImageInfo, a.eqImpl b = true ↔ a.load_address = b.load_address) ∧
    (∀ a b : ImageInfo, a.leImpl b = true ↔ a.load_address ≤ b.load_address) ∧
    (∀ (images : List ImageInfo) (addr : Nat),
      (sortDedup images).countP (fun i => i.load_address == addr) ≤ 1) := by
  refine ⟨?_, ?_, ?_⟩
  · intro a b
    simp [ImageInfo.eqImpl]
  · intro a b
    simp [ImageInfo.leImpl]
  · intro images addr
    exact countP_le_one_of_pairwise_lt addr _ (pairwise_sortDedup images)

/-- C9, witness: two descriptors with equal `load_address` and different
paths and dates compare equal and collapse to one entry. -/
theorem claim_C9_dedup_by_address_witness :
    (ImageInfo.eqImpl ⟨0x1000, 5, 0⟩ ⟨0x1000, 99, 7⟩ = true) ∧
    sortDedup [⟨0x1000, 5, 0⟩, ⟨0x1000, 99, 7⟩] = [⟨0x1000, 5, 0⟩] ∧
    (sortDedup [⟨0x1000, 5, 0⟩, ⟨0x1000, 99, 7⟩]).countP
      (fun i => i.load_address == 0x1000) ≤ 1 :=
  ⟨by decide, by decide,
   claim_C9_dedup_by_address.2.2 [⟨0x1000, 5, 0⟩, ⟨0x1000, 99, 7⟩] 0x1000⟩


theorem buildModulesAux_no_main (s : TaskDumper) :
    ∀ (l : List ImageInfo) (acc : List MDRawModule) (b : Bool),
      (∀ x ∈ l, isOkMain s x = false) →
      (buildModulesAux s l acc b).2 = b ∧
      (acc ≠ [] → (buildModulesAux s l acc b).1.head? = acc.head?) := by
  intro l
  induction l with
  | nil =>
    intro acc b _
    exact ⟨rfl, fun _ => rfl⟩
  | cons img t ih =>
    intro acc b hall
    have himg := hall img (List.mem_cons_self ..)
    have hrest : ∀ x ∈ t, isOkMain s x = false := fun x hx =>
      hall x (List.mem_cons_of_mem img hx)
    simp only [buildModulesAux]
    rcases hm : read_module s img with e | ⟨m, flag⟩
    · exact ih acc b hrest
    · have hflag : flag = false := by
        unfold isOkMain at himg
        rw [hm] at himg
        cases flag
        · rfl
        · simp at himg
      subst hflag
      simp only [Bool.false_eq_true, if_false]
      obtain ⟨h2, h1⟩ := ih (acc ++ [m]) b hrest
      refine ⟨h2, ?_⟩
      intro hne
      rw [h1 (by simp)]
      cases acc with
      | nil => exact absurd rfl hne
      | cons a t2 => rfl

theorem buildModulesAux_main (s : TaskDumper) :
    ∀ (l : List ImageInfo) (acc : List MDRawModule) (b : Bool)
      (mimg : ImageInfo),
      (l.filter (isOkMain s)).getLast? = some mimg →
      (buildModulesAux s l acc b).2 = true ∧
      (buildModulesAux s l acc b).1.head? = some (builtRecord s mimg) := by
  intro l
  induction l with
  | nil =>
    intro acc b mimg h
    simp at h
  | cons img t ih =>
    intro acc b mimg h
    simp only [buildModulesAux]
    rcases hm : read_module s img with e | ⟨m, flag⟩
    · have hio : isOkMain s img = false := by
        unfold isOkMain
        rw [hm]
      rw [List.filter_cons_of_neg (by simp [hio])] at h
      exact ih acc b mimg h
    · cases flag with
      | false =>
        have hio : isOkMain s img = false := by
          unfold isOkMain
          rw [hm]
        rw [List.filter_cons_of_neg (by simp [hio])] at h
        simp only [Bool.false_eq_true, if_false]
        exact ih (acc ++ [m]) b mimg h
      | true =>
        have hio : isOkMain s img = true := by
          unfold isOkMain
          rw [hm]
        rw [List.filter_cons_of_pos hio] at h
        dsimp only
        rw [if_pos rfl]
        cases hft : t.filter (isOkMain s) with
        | nil =>
          rw [hft] at h
          simp only [List.getLast?_singleton, Option.some_inj] at h
          subst h
          have hnall : ∀ x ∈ t, isOkMain s x = false := by
            intro x hx
            by_contra hc
            have hxf : x ∈ t.filter (isOkMain s) :=
              List.mem_filter.mpr ⟨hx, by simpa using hc⟩
            rw [hft] at hxf
            cases hxf
          obtain ⟨h2, h1⟩ := buildModulesAux_no_main s t (m :: acc) true hnall
          refine ⟨h2, ?_⟩
          rw [h1 (by simp)]
          have hbr : builtRecord s img = m := by
            unfold builtRecord
            rw [hm]
          rw [hbr]
          rfl
        | cons c cs =>
          rw [hft, List.getLast?_cons_cons] at h
          have h2 : (t.filter (isOkMain s)).getLast? = some mimg := by
            rw [hft]
            exact h
          exact ih (m :: acc) true mimg h2

theorem sorted_getLast_le :
    ∀ (l : List ImageInfo) (m : ImageInfo),
      l.Pairwise (fun x y => x.load_address ≤ y.load_address) →
      l.getLast? = some m →
      ∀ x ∈ l, x.load_address ≤ m.load_address := by
  intro l
  induction l with
  | nil =>
    intro m _ h
    cases h
  | cons a t ih =>
    intro m hp hl x hx
    rw [List.pairwise_cons] at hp
    cases t with
    | nil =>
      simp only [List.getLast?_singleton, Option.some_inj] at hl
      subst hl
      rcases List.mem_cons.mp hx with rfl | hx2
      · exact Nat.le_refl _
      · cases hx2
    | cons b ts =>
      rw [List.getLast?_cons_cons] at hl
      have hmem : m ∈ b :: ts := List.mem_of_getLast?_eq_some hl
      rcases List.mem_cons.mp hx with rfl | hx2
      · exact hp.1 m hmem
      · exact ih m hp.2 hl x hx2

/-- C10: if two or more surviving images each lack an identification
command (two or more main-executable candidates), `read_loaded_modules`
still succeeds — the exactly-one requirement is not enforced as an upper
bound — and because each such record is inserted at index 0 of the module
sequence being built, the first record of that constructed sequence is
the one of the main-executable candidate with the highest load address
(the function's returned value itself is the deduplicated image list, see
the C1 defect). -/
theorem claim_C10_multiple_mains (s : TaskDumper) (raw : List ImageInfo)
    (h : s.images = .ok raw) (i1 i2 : ImageInfo)
    (h1 : i1 ∈ sortDedup raw) (h2 : i2 ∈ sortDedup raw)
    (hne : i1 ≠ i2)
    (hm1 : isOkMain s i1 = true) (hm2 : isOkMain s i2 = true) :
    read_loaded_modulesImpl s = .ok (sortDedup raw) ∧
    ∃ mimg, mimg ∈ sortDedup raw ∧ isOkMain s mimg = true ∧
      (buildModules s (sortDedup raw)).1.head? = some (builtRecord s mimg) ∧
      ∀ x ∈ sortDedup raw, isOkMain s x = true →
        x.load_address ≤ mimg.load_address := by
  have hf1 : i1 ∈ (sortDedup raw).filter (isOkMain s) :=
    List.mem_filter.mpr ⟨h1, hm1⟩
  have hfne : (sortDedup raw).filter (isOkMain s) ≠ [] := by
    intro hc
    rw [hc] at hf1
    cases hf1
  obtain ⟨mimg, hlast⟩ :=
    Option.isSome_iff_exists.mp (List.getLast?_isSome.mpr hfne)
  obtain ⟨hflag, hhead⟩ :=
    buildModulesAux_main s (sortDedup raw) [] false mimg hlast
  have hmem_f := List.mem_of_getLast?_eq_some hlast
  have hmem : mimg ∈ sortDedup raw := (List.mem_filter.mp hmem_f).1
  have hokm : isOkMain s mimg = true := (List.mem_filter.mp hmem_f).2
  refine ⟨?_, mimg, hmem, hokm, hhead, ?_⟩
  · unfold read_loaded_modulesImpl read_images
    rw [h]
    dsimp only
    unfold buildModules
    rw [hflag]
    rfl
  · intro x hx hxok
    have hx_f : x ∈ (sortDedup raw).filter (isOkMain s) :=
      List.mem_filter.mpr ⟨hx, hxok⟩
    have hsorted :
        ((sortDedup raw).filter (isOkMain s)).Pairwise
          (fun x y => x.load_address ≤ y.load_address) :=
      ((pairwise_sortDedup raw).imp fun hlt => Nat.le_of_lt hlt).filter _
    exact sorted_getLast_le _ mimg hsorted hlast x hx_f

/-- C10, witness: two candidates at `0x3000` and `0x4000`; enumeration
succeeds and the head of the constructed record sequence is the
candidate at `0x4000`. -/
theorem claim_C10_multiple_mains_witness :
    (twoMainDumper.images =
        .ok [sampleMain2Image, sampleLibImage, sampleMainImage] ∧
      sampleMainImage ∈
        sortDedup [sampleMain2Image, sampleLibImage, sampleMainImage] ∧
      sampleMain2Image ∈
        sortDedup [sampleMain2Image, sampleLibImage, sampleMainImage] ∧
      sampleMainImage ≠ sampleMain2Image ∧
      isOkMain twoMainDumper sampleMainImage = true ∧
      isOkMain twoMainDumper sampleMain2Image = true) ∧
    (read_loaded_modulesImpl twoMainDumper =
        .ok (sortDedup [sampleMain2Image, sampleLibImage, sampleMainImage]) ∧
      ∃ mimg,
        mimg ∈ sortDedup [sampleMain2Image, sampleLibImage, sampleMainImage] ∧
        isOkMain twoMainDumper mimg = true ∧
        (buildModules twoMainDumper
            (sortDedup [sampleMain2Image, sampleLibImage, sampleMainImage])).1.head? =
          some (builtRecord twoMainDumper mimg) ∧
        ∀ x ∈ sortDedup [sampleMain2Image, sampleLibImage, sampleMainImage],
          isOkMain twoMainDumper x = true →
            x.load_address ≤ mimg.load_address) :=
  ⟨⟨by decide, by decide, by decide, by decide, by decide, by decide⟩,
   claim_C10_multiple_mains twoMainDumper
     [sampleMain2Image, sampleLibImage, sampleMainImage] (by decide)
     sampleMainImage sampleMain2Image (by decide) (by decide) (by decide)
     (by decide) (by decide)⟩

end Minidump
